import Mathlib

/-!
Verification of the deterministic-contract experiment engine of the
guardianai-deterministic-contract-ui-web repository.

The TypeScript source is shallowly embedded as follows:
* JavaScript strings are modelled as lists of characters (`JsStr`).
* The regex character class of ECMAScript whitespace is modelled concretely
  (`isJsWhitespace`).  The Unicode punctuation category used by the source
  regexes via a Unicode property escape is deliberately kept as a parameter
  (`punct : Char → Bool`) of every function that uses it, since the design
  notes of the project flag that character class as unpinned; a faithful
  ASCII restriction (`asciiPunctuation`) instantiates it for concrete runs.
* `JSON.parse` is a platform primitive, not repository code; it is modelled
  as an abstract parameter `parse : JsStr → Option Json` fed to the
  structured evaluator, with `Json` values carrying object fields as ordered
  key/value lists (JavaScript objects preserve insertion order, and
  `JSON.parse` yields keys in text order) and numbers as rationals.
* The per-trial portion of the experiment loop is embedded as a function of
  an environment record whose components stand for the injected external
  collaborators (completion provider, gate observer, constraint submission,
  cancellation flag).  A provider/gate/constraint failure or an exhausted
  `Option` models the fail-fast abort of the run, so `runTrial` returns
  `none` exactly when the source would abort without emitting a trial.
-/

namespace Guardian

/-- JavaScript strings, modelled as lists of characters. -/
abbrev JsStr := List Char

/-- The ECMAScript whitespace class (the character set matched by the
whitespace class escape of JavaScript regexes, also used by trim). -/
def isJsWhitespace (c : Char) : Bool :=
  c = '\t' || c = '\n' || c.val = 11 || c.val = 12 || c = '\r' || c = ' ' ||
  c.val = 0xa0 || c.val = 0x1680 || (0x2000 ≤ c.val && c.val ≤ 0x200a) ||
  c.val = 0x2028 || c.val = 0x2029 || c.val = 0x202f || c.val = 0x205f ||
  c.val = 0x3000 || c.val = 0xfeff

/-- The boundary character class of the source regexes: whitespace or
Unicode punctuation, the latter supplied as the parameter. -/
def isBoundaryChar (punct : Char → Bool) (c : Char) : Bool :=
  isJsWhitespace c || punct c

/-- The Unicode punctuation category restricted to ASCII (the characters
with general category P below 0x80): a concrete instantiation of the
`punct` parameter used by all concrete evaluations in this file. -/
def asciiPunctuation (c : Char) : Bool :=
  c = '!' || c = '"' || c.val = 0x23 || c = '%' || c = '&' || c.val = 0x27 ||
  c = '(' || c = ')' || c = '*' || c = ',' || c = '-' || c = '.' || c = '/' ||
  c = ':' || c = ';' || c = '?' || c = '@' || c = '[' || c.val = 0x5c ||
  c = ']' || c = '_' || c.val = 0x7b || c.val = 0x7d

/-- JavaScript `String.prototype.trim`: drop whitespace from both ends. -/
def jsTrim (s : JsStr) : JsStr :=
  ((s.dropWhile isJsWhitespace).reverse.dropWhile isJsWhitespace).reverse

/-- Strip a run of leading and a run of trailing boundary characters: the
effect of the anchored global replace in `boundaryNormalizedLiteral`. -/
def stripBoundaryRuns (punct : Char → Bool) (s : JsStr) : JsStr :=
  ((s.dropWhile (isBoundaryChar punct)).reverse.dropWhile
    (isBoundaryChar punct)).reverse

/-- ASCII lowercasing of a character, modelling the lowercase mapping on
the character range exercised here. -/
def jsToLower (c : Char) : Char := c.toLower

/-- Source `boundaryNormalizedLiteral`: trim, strip leading/trailing
boundary runs, lowercase. -/
def boundaryNormalizedLiteral (punct : Char → Bool) (value : JsStr) : JsStr :=
  (stripBoundaryRuns punct (jsTrim value)).map jsToLower

/-- Source `hasExpectedPrefixWithBoundary`: the trimmed raw output starts
with the expected literal, and either nothing follows or the next character
is a boundary character.  (The source reads the next character with
`charAt`; when the index were out of range `charAt` returns the empty
string, which the boundary regex rejects, hence the `false` in the
impossible nil case.) -/
def hasExpectedPrefixWithBoundary (punct : Char → Bool)
    (expectedLiteral rawOutput : JsStr) : Bool :=
  let trimmed := jsTrim rawOutput
  if !(List.isPrefixOf expectedLiteral trimmed) then false
  else if trimmed.length = expectedLiteral.length then true
  else
    match trimmed.drop expectedLiteral.length with
    | [] => false
    | nextChar :: _ => isBoundaryChar punct nextChar

/-- The three-way literal mismatch classification of the source. -/
inductive DeterministicMismatchKind where
  | exact
  | formattingOnly
  | semanticHardFailure
deriving DecidableEq, Repr

/-- Source `classifyMismatchKind`, the literal-contract classifier. -/
def classifyMismatchKind (punct : Char → Bool)
    (expectedLiteral rawOutput : JsStr) (exactMatch : Bool) :
    DeterministicMismatchKind :=
  if exactMatch then .exact
  else
    let expectedTrimmed := boundaryNormalizedLiteral punct expectedLiteral
    let outputTrimmed := boundaryNormalizedLiteral punct rawOutput
    if expectedTrimmed.length = 0 ∨ outputTrimmed.length = 0 then
      .semanticHardFailure
    else if expectedTrimmed = outputTrimmed then .formattingOnly
    else if hasExpectedPrefixWithBoundary punct (jsTrim expectedLiteral)
        rawOutput then .formattingOnly
    else .semanticHardFailure

/-- Source `safeRate`.  JavaScript numbers are modelled as rationals. -/
def safeRate (numerator denominator : ℚ) : Option ℚ :=
  if denominator ≤ 0 then none else some (numerator / denominator)

/-- The run gate states. -/
inductive GateState where
  | CONTINUE
  | PAUSE
  | YIELD
deriving DecidableEq, Repr

/-- The five-way structured-contract taxonomy. -/
inductive BrutalTaxonomy where
  | EXACT_MATCH
  | FORMAT_ONLY_DRIFT
  | SCHEMA_VIOLATION
  | SEMANTIC_HARD_FAILURE
  | NON_JSON_OUTPUT
deriving DecidableEq, Repr

/-- JSON values as produced by the platform parser.  Object fields are an
ordered key/value list (JavaScript objects preserve insertion order and the
parser emits keys in text order, merging duplicates); numbers are
rationals, with the two constants compared by the evaluator (0.75 and 1)
exactly representable. -/
inductive Json where
  | null
  | bool (b : Bool)
  | num (q : ℚ)
  | str (s : JsStr)
  | arr (items : List Json)
  | obj (fields : List (JsStr × Json))

instance : Nonempty (List (JsStr × Json)) := ⟨[]⟩

/-- Property access on a parsed object: the value of the first field with
the given key (parsed objects carry each key at most once). -/
def lookupField (fields : List (JsStr × Json)) (key : JsStr) : Option Json :=
  match fields with
  | [] => none
  | (k, v) :: rest => if k = key then some v else lookupField rest key

/-- The ordered key list of a parsed object. -/
def keysOf (fields : List (JsStr × Json)) : List JsStr :=
  fields.map Prod.fst

/-- Source `BRUTAL_ALLOWED_LABELS`. -/
def BRUTAL_ALLOWED_LABELS : List JsStr :=
  ["A".data, "B".data, "C".data, "D".data]

/-- The result sub-object of a parsed top-level object (the source local
`resultRecord`): the value at key result when that value is a non-array
object, else `none`. -/
def resultRecordOf (record : List (JsStr × Json)) :
    Option (List (JsStr × Json)) :=
  match lookupField record "result".data with
  | some (.obj rf) => some rf
  | _ => none

/-- The meta sub-object of a parsed top-level object (the source local
`metaRecord`): the value at key meta when that value is a non-array
object, else `none`. -/
def metaRecordOf (record : List (JsStr × Json)) :
    Option (List (JsStr × Json)) :=
  match lookupField record "meta".data with
  | some (.obj mf) => some mf
  | _ => none

/-- Diagnostics record returned by the structured evaluator. -/
structure BrutalEvaluation where
  taxonomy : BrutalTaxonomy
  rawMatch : Bool
  jsonParseValid : Bool
  schemaValid : Bool
  keyOrderValid : Bool
  semanticHardFailure : Bool
  parsedLabel : Option JsStr
deriving DecidableEq, Repr

/-- Source `evaluateBrutalOutput`, the structured-contract classifier, with
`JSON.parse` supplied as the abstract `parse` parameter.  The source casts
the answer value to a string once `schemaValid` holds; here the final
branch matches on the answer value instead, returning the same
schema-violation record in the non-string case (where `schemaValid` is
necessarily false). -/
def evaluateBrutalOutput (parse : JsStr → Option Json)
    (modelOutput expectedLabel expectedLiteral : JsStr) : BrutalEvaluation :=
  if modelOutput = expectedLiteral then
    { taxonomy := .EXACT_MATCH, rawMatch := true, jsonParseValid := true,
      schemaValid := true, keyOrderValid := true, semanticHardFailure := false,
      parsedLabel := some expectedLabel }
  else
    match parse modelOutput with
    | none =>
      { taxonomy := .NON_JSON_OUTPUT, rawMatch := false, jsonParseValid := false,
        schemaValid := false, keyOrderValid := false, semanticHardFailure := false,
        parsedLabel := none }
    | some parsed =>
      match parsed with
      | .obj record =>
        let topKeys := keysOf record
        let topLevelKeyOrderValid : Bool :=
          decide (topKeys = ["result".data, "meta".data])
        let resultRecord := resultRecordOf record
        let metaRecord := metaRecordOf record
        let resultIsObject : Bool := resultRecord.isSome
        let metaIsObject : Bool := metaRecord.isSome
        let resultKeys : List JsStr :=
          match resultRecord with | some rf => keysOf rf | none => []
        let metaKeys : List JsStr :=
          match metaRecord with | some mf => keysOf mf | none => []
        let resultKeyOrderValid : Bool :=
          decide (resultKeys = ["answer".data, "confidence".data])
        let metaKeyOrderValid : Bool := decide (metaKeys = ["version".data])
        let answerValue : Option Json :=
          resultRecord.bind (fun rf => lookupField rf "answer".data)
        let confidenceValue : Option Json :=
          resultRecord.bind (fun rf => lookupField rf "confidence".data)
        let versionValue : Option Json :=
          metaRecord.bind (fun mf => lookupField mf "version".data)
        let keyOrderValid :=
          topLevelKeyOrderValid && resultKeyOrderValid && metaKeyOrderValid
        let answerIsAllowedString : Bool :=
          match answerValue with
          | some (.str a) => decide (a ∈ BRUTAL_ALLOWED_LABELS)
          | _ => false
        let confidenceIsRequired : Bool :=
          match confidenceValue with
          | some (.num q) => decide (q = 0.75)
          | _ => false
        let versionIsRequired : Bool :=
          match versionValue with
          | some (.num q) => decide (q = 1)
          | _ => false
        let schemaValid :=
          topLevelKeyOrderValid && resultIsObject && metaIsObject &&
          resultKeyOrderValid && metaKeyOrderValid && answerIsAllowedString &&
          confidenceIsRequired && versionIsRequired
        match answerValue with
        | some (.str a) =>
          if schemaValid = false then
            { taxonomy := .SCHEMA_VIOLATION, rawMatch := false,
              jsonParseValid := true, schemaValid := false,
              keyOrderValid := keyOrderValid, semanticHardFailure := false,
              parsedLabel := none }
          else if a ≠ expectedLabel then
            { taxonomy := .SEMANTIC_HARD_FAILURE, rawMatch := false,
              jsonParseValid := true, schemaValid := true,
              keyOrderValid := keyOrderValid, semanticHardFailure := true,
              parsedLabel := some a }
          else
            { taxonomy := .FORMAT_ONLY_DRIFT, rawMatch := false,
              jsonParseValid := true, schemaValid := true,
              keyOrderValid := keyOrderValid, semanticHardFailure := false,
              parsedLabel := some a }
        | _ =>
          { taxonomy := .SCHEMA_VIOLATION, rawMatch := false,
            jsonParseValid := true, schemaValid := false,
            keyOrderValid := keyOrderValid, semanticHardFailure := false,
            parsedLabel := none }
      | _ =>
        { taxonomy := .SCHEMA_VIOLATION, rawMatch := false,
          jsonParseValid := true, schemaValid := false, keyOrderValid := false,
          semanticHardFailure := false, parsedLabel := none }

/-- The fields of a parsed value when it is a non-array object, otherwise
`none` (spec-side accessor). -/
def objFields : Json → Option (List (JsStr × Json))
  | .obj fields => some fields
  | _ => none

/-- Spec-side accessor: the answer string of a parsed top-level object. -/
def specAnswer (record : List (JsStr × Json)) : Option JsStr :=
  match resultRecordOf record with
  | some rf =>
    match lookupField rf "answer".data with
    | some (.str a) => some a
    | _ => none
  | none => none

/-- Spec-side accessor: the confidence number of a parsed object. -/
def specConfidence (record : List (JsStr × Json)) : Option ℚ :=
  match resultRecordOf record with
  | some rf =>
    match lookupField rf "confidence".data with
    | some (.num q) => some q
    | _ => none
  | none => none

/-- Spec-side accessor: the version number of a parsed object. -/
def specVersion (record : List (JsStr × Json)) : Option ℚ :=
  match metaRecordOf record with
  | some mf =>
    match lookupField mf "version".data with
    | some (.num q) => some q
    | _ => none
  | none => none

/-- The key-set/key-order/value checks as the specification words them:
top-level keys exactly result then meta, result an object with keys exactly
answer then confidence, meta an object with key exactly version, answer a
string drawn from the allowed label set, confidence exactly 0.75, version
exactly 1. -/
def specChecksPass (record : List (JsStr × Json)) : Prop :=
  keysOf record = ["result".data, "meta".data] ∧
  (resultRecordOf record).map keysOf =
    some ["answer".data, "confidence".data] ∧
  (metaRecordOf record).map keysOf = some ["version".data] ∧
  (∃ a ∈ BRUTAL_ALLOWED_LABELS, specAnswer record = some a) ∧
  specConfidence record = some 0.75 ∧
  specVersion record = some 1

instance (record : List (JsStr × Json)) : Decidable (specChecksPass record) := by
  unfold specChecksPass; infer_instance

/-- The structured taxonomy exactly as the specification describes it:
byte equality gives EXACT_MATCH, parse failure NON_JSON_OUTPUT, a
non-object (or any failed schema check) SCHEMA_VIOLATION, a wrong answer
SEMANTIC_HARD_FAILURE, and otherwise FORMAT_ONLY_DRIFT. -/
def brutalTaxonomySpec (parse : JsStr → Option Json)
    (modelOutput expectedLabel expectedLiteral : JsStr) : BrutalTaxonomy :=
  if modelOutput = expectedLiteral then .EXACT_MATCH
  else
    match parse modelOutput with
    | none => .NON_JSON_OUTPUT
    | some parsed =>
      match objFields parsed with
      | none => .SCHEMA_VIOLATION
      | some record =>
        if specChecksPass record then
          if specAnswer record ≠ some expectedLabel then .SEMANTIC_HARD_FAILURE
          else .FORMAT_ONLY_DRIFT
        else .SCHEMA_VIOLATION

/-- Script prompt records.  The expected literal field is `none` when the
line carries no such field or a non-string value; the other fields keep
only what the trial logic reads. -/
structure ScriptPrompt where
  prompt : JsStr
  expected_literal : Option JsStr := none
  expected_label : Option JsStr := none
deriving Repr

/-- Source `normalizeExpectedLiteral`: a well-formed expected literal is a
string field whose trimmed form is nonempty, ingested trimmed. -/
def normalizeExpectedLiteral (p : ScriptPrompt) : Option JsStr :=
  match p.expected_literal with
  | none => none
  | some candidate =>
    let trimmed := jsTrim candidate
    if trimmed.length > 0 then some trimmed else none

/-- The exact brutal contract literal for a label, as produced by the
template string of `generateBrutalPrompts`. -/
def brutalLiteralFor (label : JsStr) : JsStr :=
  "\x7b\"result\":\x7b\"answer\":\"".data ++ label ++
    "\",\"confidence\":0.75\x7d,\"meta\":\x7b\"version\":1\x7d\x7d".data

/-- The anchored source regex `BRUTAL_OUTPUT_PATTERN` as a matcher: it
matches exactly the four brutal contract literals, capturing the label. -/
def brutalOutputPatternLabel (value : JsStr) : Option JsStr :=
  BRUTAL_ALLOWED_LABELS.find? (fun label => decide (value = brutalLiteralFor label))

/-- The expected-label computation of the trial loop: the trimmed
`expected_label` field when it is a string (even when trimmed empty, since
the nullish-coalescing operator keeps it), otherwise the label captured by
the brutal output pattern from the expected literal. -/
def expectedLabelFor (p : ScriptPrompt) (expectedLiteral : Option JsStr) :
    Option JsStr :=
  let hint := p.expected_label.map jsTrim
  let fromLiteral :=
    match expectedLiteral with
    | some lit => brutalOutputPatternLabel lit
    | none => none
  match hint with
  | some h => some h
  | none => fromLiteral

/-- JavaScript truthiness of an optional string: present and nonempty. -/
def jsTruthyStr : Option JsStr → Bool
  | none => false
  | some s => !s.isEmpty

/-- A finalized trial record (the fields of the source turn object that the
trial state machine computes; the opaque id, telemetry and override fields
of the UI record are omitted). -/
structure ExperimentTurn where
  turnIndex : Nat := 1
  prompt : JsStr := []
  initialOutput : JsStr
  baselineOutput : JsStr
  initialGateState : GateState
  gateState : GateState
  initialExactMatch : Option Bool
  constraintApplied : Bool
  contractExpectedLiteral : Option JsStr
  contractExactMatch : Option Bool
  expectedLabel : Option JsStr
  retryCountUsed : Nat
  correctionSucceeded : Bool
  rawMatch : Option Bool
  jsonParseValid : Option Bool
  schemaValid : Option Bool
  keyOrderValid : Option Bool
  semanticHardFailure : Option Bool
  taxonomy : Option BrutalTaxonomy
deriving Repr

/-- Source `mismatchKindForTurn`: no classification without a contract
exact-match flag (the undefined and null cases both map to `none`); a turn
with a falsy expected literal (absent or empty) classifies by the flag
alone; otherwise the literal classifier runs on the baseline output. -/
def mismatchKindForTurn (punct : Char → Bool) (turn : ExperimentTurn) :
    Option DeterministicMismatchKind :=
  match turn.contractExactMatch with
  | none => none
  | some flag =>
    match turn.contractExpectedLiteral with
    | none => some (if flag then .exact else .semanticHardFailure)
    | some expected =>
      if expected.isEmpty then
        some (if flag then .exact else .semanticHardFailure)
      else
        some (classifyMismatchKind punct expected turn.baselineOutput flag)

/-- The injected external collaborators and configuration of one trial.
Outbound calls are numbered: call 0 is the initial completion and initial
observation, call k is the k-th retry completion and retry observation.
A `none`/`false` result models the corresponding call failing, which
aborts the run; `cancelledAtRetry` is the run cancellation flag as sampled
at the head of each retry iteration. -/
structure TrialEnv where
  isBrutalScript : Bool
  assistedEnabled : Bool
  assistedRetryCap : Nat
  parse : JsStr → Option Json
  requestLLM : Nat → Option JsStr
  observe : Nat → Option GateState
  applyConstraint : Nat → Bool
  cancelledAtRetry : Nat → Bool

/-- The mutable locals of the retry loop, threaded explicitly. -/
structure RetryState where
  finalOutput : JsStr
  finalExactMatch : Option Bool
  finalGateState : GateState
  constraintApplied : Bool
  retryCountUsed : Nat
  finalEval : Option BrutalEvaluation

/-- The locally derived structured gate, inlined twice by the source:
EXACT_MATCH continues, every other taxonomy pauses. -/
def brutalGateState (ev : BrutalEvaluation) : GateState :=
  if ev.taxonomy = .EXACT_MATCH then .CONTINUE else .PAUSE

/-- One gate computation, shared by the initial evaluation and each retry
re-evaluation: with a brutal script and truthy literal and label the gate
is derived locally from the structured evaluation (also returned); in every
other case the external observer is consulted and no evaluation is
produced. -/
def gateForOutput (env : TrialEnv) (callIndex : Nat) (output : JsStr) :
    Option JsStr → Option JsStr → Option (GateState × Option BrutalEvaluation)
  | some lit, some label =>
    if env.isBrutalScript ∧ ¬lit.isEmpty ∧ ¬label.isEmpty then
      let ev := evaluateBrutalOutput env.parse output label lit
      some (brutalGateState ev, some ev)
    else (env.observe callIndex).map (fun g => (g, none))
  | _, _ => (env.observe callIndex).map (fun g => (g, none))

/-- The assisted retry loop of the trial state machine.  The fuel argument
starts at the retry cap; since every iteration both consumes one fuel unit
and increments the used count, exhausting the fuel coincides with the
loop guard failing, so this is the source while loop.  Per iteration, in
order: loop guard, cancellation sample, constraint proposal on PAUSE in
literal mode (failure aborts), retry count increment, retry completion
(failure aborts), exact-match re-evaluation, gate recomputation (observer
failure aborts). -/
def runRetryLoop (env : TrialEnv) (expectedLiteral : JsStr)
    (expectedLabel : Option JsStr) : Nat → RetryState → Option RetryState
  | 0, st => some st
  | fuel + 1, st =>
    if st.retryCountUsed < env.assistedRetryCap ∧
        st.finalExactMatch = some false then
      if env.cancelledAtRetry st.retryCountUsed then some st
      else
        let afterConstraint : Option RetryState :=
          if ¬env.isBrutalScript ∧ st.finalGateState = .PAUSE then
            if env.applyConstraint st.retryCountUsed then
              some { st with constraintApplied := true }
            else none
          else some st
        match afterConstraint with
        | none => none
        | some st1 =>
          let used := st1.retryCountUsed + 1
          match env.requestLLM used with
          | none => none
          | some retryOutput =>
            let exact := decide (retryOutput = expectedLiteral)
            match gateForOutput env used retryOutput (some expectedLiteral)
                expectedLabel with
            | none => none
            | some (g, evOpt) =>
              runRetryLoop env expectedLiteral expectedLabel fuel
                { finalOutput := retryOutput,
                  finalExactMatch := some exact,
                  finalGateState := g,
                  constraintApplied := st1.constraintApplied,
                  retryCountUsed := used,
                  finalEval :=
                    match evOpt with
                    | some ev => some ev
                    | none => st1.finalEval }
    else some st

/-- One iteration of the experiment loop, from the initial completion
request to the emitted turn.  Returns `none` exactly when the source aborts
the run at this trial without emitting it (provider, observer or constraint
failure); a mid-loop cancellation still emits the trial built so far. -/
def runTrial (env : TrialEnv) (scriptPrompt : ScriptPrompt) :
    Option ExperimentTurn :=
  match env.requestLLM 0 with
  | none => none
  | some initialOutput =>
    let expectedLiteral := normalizeExpectedLiteral scriptPrompt
    let expectedLabel := expectedLabelFor scriptPrompt expectedLiteral
    let initialExactMatch : Option Bool :=
      expectedLiteral.map (fun lit => decide (initialOutput = lit))
    match gateForOutput env 0 initialOutput expectedLiteral expectedLabel with
    | none => none
    | some (initialGateState, initialEval) =>
      let stInit : RetryState :=
        { finalOutput := initialOutput,
          finalExactMatch := initialExactMatch,
          finalGateState := initialGateState,
          constraintApplied := false,
          retryCountUsed := 0,
          finalEval := initialEval }
      let loopResult : Option (RetryState × Bool) :=
        match expectedLiteral with
        | some lit =>
          if env.assistedEnabled ∧ initialExactMatch = some false then
            match runRetryLoop env lit expectedLabel env.assistedRetryCap
                stInit with
            | none => none
            | some st =>
              some (st, decide (st.finalExactMatch = some true ∧
                st.retryCountUsed > 0))
          else some (stInit, false)
        | none => some (stInit, false)
      match loopResult with
      | none => none
      | some (st, correctionSucceeded) =>
        some
          { prompt := scriptPrompt.prompt,
            initialOutput := initialOutput,
            baselineOutput := st.finalOutput,
            initialGateState := initialGateState,
            gateState := st.finalGateState,
            initialExactMatch := initialExactMatch,
            constraintApplied := st.constraintApplied,
            contractExpectedLiteral := expectedLiteral,
            contractExactMatch := st.finalExactMatch,
            expectedLabel := expectedLabel,
            retryCountUsed := st.retryCountUsed,
            correctionSucceeded := correctionSucceeded,
            rawMatch := st.finalEval.map (·.rawMatch),
            jsonParseValid := st.finalEval.map (·.jsonParseValid),
            schemaValid := st.finalEval.map (·.schemaValid),
            keyOrderValid := st.finalEval.map (·.keyOrderValid),
            semanticHardFailure := st.finalEval.map (·.semanticHardFailure),
            taxonomy := st.finalEval.map (·.taxonomy) }

/-- Spec-side boundary condition on the text following the literal: there
is no following character, or it is whitespace or punctuation. -/
def specFollowingBoundary (punct : Char → Bool) (rest : JsStr) : Bool :=
  match rest with
  | [] => true
  | c :: _ => isBoundaryChar punct c

/-- The prefix-with-boundary rule as the specification words it: the
trimmed raw output starts with the trimmed expected literal, and the
immediately following character (if any) is whitespace or punctuation. -/
def specPrefixWithBoundary (punct : Char → Bool)
    (expectedLiteral rawOutput : JsStr) : Bool :=
  List.isPrefixOf (jsTrim expectedLiteral) (jsTrim rawOutput) &&
    specFollowingBoundary punct
      ((jsTrim rawOutput).drop (jsTrim expectedLiteral).length)

/-- The literal classification algorithm exactly as the specification
describes it, to be compared with the source classifier. -/
def classifyMismatchKindSpec (punct : Char → Bool)
    (expectedLiteral rawOutput : JsStr) (exactMatch : Bool) :
    DeterministicMismatchKind :=
  if exactMatch then .exact
  else
    let expectedNorm := boundaryNormalizedLiteral punct expectedLiteral
    let outputNorm := boundaryNormalizedLiteral punct rawOutput
    if expectedNorm = [] ∨ outputNorm = [] then .semanticHardFailure
    else if expectedNorm = outputNorm then .formattingOnly
    else if specPrefixWithBoundary punct expectedLiteral rawOutput then
      .formattingOnly
    else .semanticHardFailure

/-- A concrete passive literal-mode environment: the provider always
answers 42, the observer always continues. -/
def envPassive : TrialEnv :=
  { isBrutalScript := false, assistedEnabled := false, assistedRetryCap := 2,
    parse := fun _ => none, requestLLM := fun _ => some "42".data,
    observe := fun _ => some .CONTINUE, applyConstraint := fun _ => true,
    cancelledAtRetry := fun _ => false }

/-- The passive environment with a provider that echoes the untrimmed
literal (with its surrounding spaces). -/
def envUntrimmed : TrialEnv :=
  { envPassive with
    requestLLM := fun _ => some " 42 ".data }

/-- A prompt with no expected literal field. -/
def promptNoContract : ScriptPrompt := { prompt := "p".data }

/-- A prompt whose expected literal carries surrounding whitespace. -/
def promptSpaced : ScriptPrompt :=
  { prompt := "p".data, expected_literal := some " 42 ".data }

/-- The turn emitted by the passive environment on the spaced prompt. -/
def turnSpacedPassive : ExperimentTurn :=
  { prompt := "p".data, initialOutput := "42".data,
    baselineOutput := "42".data, initialGateState := .CONTINUE,
    gateState := .CONTINUE, initialExactMatch := some true,
    constraintApplied := false, contractExpectedLiteral := some "42".data,
    contractExactMatch := some true, expectedLabel := none,
    retryCountUsed := 0, correctionSucceeded := false, rawMatch := none,
    jsonParseValid := none, schemaValid := none, keyOrderValid := none,
    semanticHardFailure := none, taxonomy := none }

/-- The turn emitted by the untrimmed-echo environment on the spaced
prompt. -/
def turnSpacedUntrimmed : ExperimentTurn :=
  { turnSpacedPassive with
    initialOutput := " 42 ".data
    baselineOutput := " 42 ".data
    initialExactMatch := some false
    contractExactMatch := some false }

/-- The turn emitted by the passive environment on the contract-free
prompt. -/
def turnNoContract : ExperimentTurn :=
  { turnSpacedPassive with
    initialExactMatch := none
    contractExpectedLiteral := none
    contractExactMatch := none }

/-- A concrete passive brutal-mode environment whose provider answers a
non-JSON text. -/
def envBrutal : TrialEnv :=
  { isBrutalScript := true, assistedEnabled := false, assistedRetryCap := 2,
    parse := fun _ => none, requestLLM := fun _ => some "x".data,
    observe := fun _ => some .CONTINUE, applyConstraint := fun _ => true,
    cancelledAtRetry := fun _ => false }

/-- A brutal-script prompt carrying the exact contract literal for label B. -/
def promptBrutalB : ScriptPrompt :=
  { prompt := "p".data,
    expected_literal := some (brutalLiteralFor "B".data),
    expected_label := some "B".data }

/-- The turn emitted by the brutal environment on the label-B prompt: the
non-JSON output classifies as NON_JSON_OUTPUT and pauses the gate. -/
def turnBrutalB : ExperimentTurn :=
  { prompt := "p".data, initialOutput := "x".data, baselineOutput := "x".data,
    initialGateState := .PAUSE, gateState := .PAUSE,
    initialExactMatch := some false, constraintApplied := false,
    contractExpectedLiteral := some (brutalLiteralFor "B".data),
    contractExactMatch := some false, expectedLabel := some "B".data,
    retryCountUsed := 0, correctionSucceeded := false,
    rawMatch := some false, jsonParseValid := some false,
    schemaValid := some false, keyOrderValid := some false,
    semanticHardFailure := some false, taxonomy := some .NON_JSON_OUTPUT }

/-- A concrete finalized turn with a defined exact-match flag and no
expected literal, used to instantiate the classifier theorems. -/
def turnWithoutLiteral : ExperimentTurn :=
  { initialOutput := "x".data, baselineOutput := "x".data,
    initialGateState := .CONTINUE, gateState := .PAUSE,
    initialExactMatch := some false, constraintApplied := false,
    contractExpectedLiteral := none, contractExactMatch := some false,
    expectedLabel := none, retryCountUsed := 0,
    correctionSucceeded := false, rawMatch := none, jsonParseValid := none,
    schemaValid := none, keyOrderValid := none, semanticHardFailure := none,
    taxonomy := none }

end Guardian

namespace Guardian

/-- C6: `safeRate` returns `none` for every numerator whenever the
denominator is nonpositive and the exact quotient otherwise; in particular
it is `none` at denominator 0 for every numerator, 0 at 0/5 and 0.6 at
3/5. -/
theorem safeRate_correct (n d : ℚ) :
    (d ≤ 0 → safeRate n d = none) ∧
    (0 < d → safeRate n d = some (n / d)) ∧
    safeRate n 0 = none ∧ safeRate 0 5 = some 0 ∧ safeRate 3 5 = some 0.6 := by
  refine ⟨fun h => ?_, fun h => ?_, ?_, ?_, ?_⟩
  · simp [safeRate, h]
  · rw [safeRate, if_neg (not_le.mpr h)]
  · simp [safeRate]
  · norm_num [safeRate]
  · norm_num [safeRate]

/-- Witness for `safeRate_correct` at concrete inputs on both sides of the
denominator test. -/
theorem safeRate_correct_witness :
    safeRate 3 (-1) = none ∧ safeRate 3 5 = some (3 / 5) :=
  ⟨(safeRate_correct 3 (-1)).1 (by norm_num),
   (safeRate_correct 3 5).2.1 (by norm_num)⟩

/-- C2 counterexample: the classifier does not return formatting drift on
the vector where the expected literal 42 occurs only at the end of the
output, because the prefix-with-boundary rule requires the trimmed output
to start with the literal. -/
theorem classify_answer_is_42_not_formattingOnly :
    classifyMismatchKind asciiPunctuation "42".data
        "The answer is 42.".data false ≠
      DeterministicMismatchKind.formattingOnly := by decide

/-- C2 amended: on that vector the classifier returns a hard semantic
failure. -/
theorem classify_answer_is_42_semanticHardFailure :
    classifyMismatchKind asciiPunctuation "42".data
        "The answer is 42.".data false =
      DeterministicMismatchKind.semanticHardFailure := by decide

/-- C10: a turn with a defined contract exact-match flag but an absent or
empty expected literal classifies as exact when the flag holds and as a
hard semantic failure otherwise; in particular it never classifies as
formatting drift and never goes unclassified on that input shape. -/
theorem mismatchKindForTurn_without_literal (punct : Char → Bool)
    (turn : ExperimentTurn) (flag : Bool)
    (hm : turn.contractExactMatch = some flag)
    (he : turn.contractExpectedLiteral = none ∨
      turn.contractExpectedLiteral = some []) :
    mismatchKindForTurn punct turn =
      some (if flag then .exact else .semanticHardFailure) := by
  rcases he with he | he <;> simp [mismatchKindForTurn, hm, he]

/-- Witness for `mismatchKindForTurn_without_literal` on a concrete turn. -/
theorem mismatchKindForTurn_without_literal_witness :
    mismatchKindForTurn asciiPunctuation turnWithoutLiteral =
      some DeterministicMismatchKind.semanticHardFailure := by
  simpa using
    mismatchKindForTurn_without_literal asciiPunctuation turnWithoutLiteral
      false rfl (Or.inl rfl)

/-- A successful boolean prefix test bounds the candidate length by the
scanned length. -/
theorem isPrefixOf_length_le : ∀ (l1 l2 : JsStr),
    List.isPrefixOf l1 l2 = true → l1.length ≤ l2.length := by
  intro l1
  induction l1 with
  | nil => intro l2 _; simp
  | cons a as ih =>
    intro l2 h
    cases l2 with
    | nil => simp [List.isPrefixOf] at h
    | cons b bs =>
      simp only [List.isPrefixOf, Bool.and_eq_true] at h
      have := ih bs h.2
      simp only [List.length_cons]
      omega

/-- The source prefix test coincides with the prefix-with-boundary rule as
the specification words it. -/
theorem hasExpectedPrefixWithBoundary_eq_spec (punct : Char → Bool)
    (e raw : JsStr) :
    hasExpectedPrefixWithBoundary punct (jsTrim e) raw =
      specPrefixWithBoundary punct e raw := by
  unfold hasExpectedPrefixWithBoundary specPrefixWithBoundary
    specFollowingBoundary
  by_cases hp : List.isPrefixOf (jsTrim e) (jsTrim raw)
  · rw [hp]
    by_cases hl : (jsTrim raw).length = (jsTrim e).length
    · have hdrop : (jsTrim raw).drop (jsTrim e).length = [] := by
        apply List.drop_eq_nil_of_le
        omega
      simp [hl, hdrop, hp]
    · have hle : (jsTrim e).length ≤ (jsTrim raw).length :=
        isPrefixOf_length_le _ _ hp
      cases hd : (jsTrim raw).drop (jsTrim e).length with
      | nil =>
        exfalso
        have := List.drop_eq_nil_iff.mp hd
        omega
      | cons c cs => simp [hl, hd, hp]
  · simp [hp]

/-- C5: on every emitted trial, the correction-succeeded flag holds exactly
when the final contract exact-match flag is true and at least one retry was
used; in particular correction success implies a positive retry count and a
final exact match. -/
theorem runTrial_correctionSucceeded (env : TrialEnv) (p : ScriptPrompt)
    (t : ExperimentTurn) (h : runTrial env p = some t) :
    t.correctionSucceeded = true ↔
      t.contractExactMatch = some true ∧ 0 < t.retryCountUsed := by
  unfold runTrial at h
  cases hreq : env.requestLLM 0 with
  | none => rw [hreq] at h; cases h
  | some initialOutput =>
    rw [hreq] at h
    dsimp only at h
    cases hgate : gateForOutput env 0 initialOutput
        (normalizeExpectedLiteral p)
        (expectedLabelFor p (normalizeExpectedLiteral p)) with
    | none => rw [hgate] at h; cases h
    | some ge =>
      obtain ⟨g0, ev0⟩ := ge
      rw [hgate] at h
      dsimp only at h
      cases hlit : normalizeExpectedLiteral p with
      | none =>
        rw [hlit] at h
        dsimp only at h
        cases h
        simp
      | some lit =>
        rw [hlit] at h
        dsimp only at h
        split at h
        · cases h
        · rename_i st corr heq
          cases h
          split at heq
          · split at heq
            · cases heq
            · rename_i st' hloop
              simp only [Option.some.injEq, Prod.mk.injEq] at heq
              obtain ⟨rfl, rfl⟩ := heq
              simp [decide_eq_true_eq]
          · simp only [Option.some.injEq, Prod.mk.injEq] at heq
            obtain ⟨rfl, rfl⟩ := heq
            simp

/-- Witness for `runTrial_correctionSucceeded` on the concrete passive
run. -/
theorem runTrial_correctionSucceeded_witness :
    turnSpacedPassive.correctionSucceeded = true ↔
      turnSpacedPassive.contractExactMatch = some true ∧
        0 < turnSpacedPassive.retryCountUsed :=
  runTrial_correctionSucceeded envPassive promptSpaced turnSpacedPassive rfl

/-- The retry loop grows the used-retry count by at most its fuel. -/
theorem runRetryLoop_count_le (env : TrialEnv) (lit : JsStr)
    (lab : Option JsStr) :
    ∀ (fuel : Nat) (st st' : RetryState),
      runRetryLoop env lit lab fuel st = some st' →
      st'.retryCountUsed ≤ st.retryCountUsed + fuel := by
  intro fuel
  induction fuel with
  | zero =>
    intro st st' h
    unfold runRetryLoop at h
    cases h
    omega
  | succ n ih =>
    intro st st' h
    unfold runRetryLoop at h
    split at h
    · split at h
      · cases h
        omega
      · dsimp only at h
        split at h
        · cases h
        · rename_i st1 heq
          have hst1 : st1.retryCountUsed = st.retryCountUsed := by
            split at heq
            · split at heq
              · cases heq; rfl
              · cases heq
            · cases heq; rfl
          split at h
          · cases h
          · split at h
            · cases h
            · have := ih _ st' h
              dsimp only at this
              omega
    · cases h
      omega

/-- C4: every emitted trial uses at most the configured retry cap, and a
trial whose retry loop was never entered (assisted mode off, no contract,
or an output that is not an evaluated initial failure) is finalized with a
zero retry count. -/
theorem runTrial_retryCount_le_cap (env : TrialEnv) (p : ScriptPrompt)
    (t : ExperimentTurn) (h : runTrial env p = some t) :
    t.retryCountUsed ≤ env.assistedRetryCap ∧
      ((env.assistedEnabled = false ∨ t.contractExpectedLiteral = none ∨
          t.initialExactMatch ≠ some false) → t.retryCountUsed = 0) := by
  unfold runTrial at h
  cases hreq : env.requestLLM 0 with
  | none => rw [hreq] at h; cases h
  | some initialOutput =>
    rw [hreq] at h
    dsimp only at h
    cases hgate : gateForOutput env 0 initialOutput
        (normalizeExpectedLiteral p)
        (expectedLabelFor p (normalizeExpectedLiteral p)) with
    | none => rw [hgate] at h; cases h
    | some ge =>
      obtain ⟨g0, ev0⟩ := ge
      rw [hgate] at h
      dsimp only at h
      cases hlit : normalizeExpectedLiteral p with
      | none =>
        rw [hlit] at h
        dsimp only at h
        cases h
        exact ⟨Nat.zero_le _, fun _ => rfl⟩
      | some lit =>
        rw [hlit] at h
        dsimp only at h
        split at h
        · cases h
        · rename_i st corr heq
          cases h
          split at heq
          · rename_i hcond
            split at heq
            · cases heq
            · rename_i st' hloop
              simp only [Option.some.injEq, Prod.mk.injEq] at heq
              obtain ⟨rfl, rfl⟩ := heq
              have hle := runRetryLoop_count_le env lit
                (expectedLabelFor p (some lit)) env.assistedRetryCap _ _ hloop
              dsimp only at hle
              dsimp only
              refine ⟨by omega, fun hdisj => ?_⟩
              rcases hdisj with hd | hd | hd
              · simp [hd] at hcond
              · simp at hd
              · exact absurd hcond.2 hd
          · simp only [Option.some.injEq, Prod.mk.injEq] at heq
            obtain ⟨rfl, rfl⟩ := heq
            exact ⟨Nat.zero_le _, fun _ => rfl⟩

/-- Witness for `runTrial_retryCount_le_cap` on the concrete passive run:
the emitted turn stays within the cap and, the retry loop never having
been entered, reports zero retries. -/
theorem runTrial_retryCount_le_cap_witness :
    turnSpacedPassive.retryCountUsed ≤ envPassive.assistedRetryCap ∧
      turnSpacedPassive.retryCountUsed = 0 :=
  ⟨(runTrial_retryCount_le_cap envPassive promptSpaced turnSpacedPassive
      rfl).1,
   (runTrial_retryCount_le_cap envPassive promptSpaced turnSpacedPassive
      rfl).2 (Or.inl rfl)⟩

/-- Without a truthy expected literal the gate always comes from the
external observer. -/
theorem gateForOutput_no_literal (env : TrialEnv) (k : Nat) (out : JsStr)
    (lab : Option JsStr) :
    gateForOutput env k out none lab =
      (env.observe k).map (fun g => (g, none)) := by
  cases lab <;> rfl

/-- C8: a prompt without a well-formed expected literal is non-fatal: when
the provider and the observer answer, the runner still emits a trial whose
evaluation fields stay undefined, with no retries and no claimed
correction, and the run continues. -/
theorem runTrial_contract_error (env : TrialEnv) (p : ScriptPrompt)
    (initialOutput : JsStr) (g : GateState)
    (hlit : normalizeExpectedLiteral p = none)
    (hreq : env.requestLLM 0 = some initialOutput)
    (hobs : env.observe 0 = some g) :
    (runTrial env p).isSome = true ∧
      ∀ t, runTrial env p = some t →
        t.initialExactMatch = none ∧ t.contractExactMatch = none ∧
        t.retryCountUsed = 0 ∧ t.correctionSucceeded = false := by
  have hrun : runTrial env p =
      some { prompt := p.prompt, initialOutput := initialOutput,
             baselineOutput := initialOutput, initialGateState := g,
             gateState := g, initialExactMatch := none,
             constraintApplied := false, contractExpectedLiteral := none,
             contractExactMatch := none,
             expectedLabel := expectedLabelFor p none, retryCountUsed := 0,
             correctionSucceeded := false, rawMatch := none,
             jsonParseValid := none, schemaValid := none,
             keyOrderValid := none, semanticHardFailure := none,
             taxonomy := none } := by
    unfold runTrial
    rw [hreq]
    dsimp only
    rw [hlit, gateForOutput_no_literal, hobs]
    rfl
  refine ⟨by rw [hrun]; rfl, fun t ht => ?_⟩
  rw [hrun] at ht
  cases ht
  exact ⟨rfl, rfl, rfl, rfl⟩

/-- Witness for `runTrial_contract_error` on the concrete contract-free
prompt. -/
theorem runTrial_contract_error_witness :
    (runTrial envPassive promptNoContract).isSome = true ∧
      turnNoContract.initialExactMatch = none ∧
      turnNoContract.retryCountUsed = 0 :=
  ⟨(runTrial_contract_error envPassive promptNoContract "42".data .CONTINUE
      rfl rfl rfl).1,
   ((runTrial_contract_error envPassive promptNoContract "42".data .CONTINUE
      rfl rfl rfl).2 turnNoContract rfl).1,
   ((runTrial_contract_error envPassive promptNoContract "42".data .CONTINUE
      rfl rfl rfl).2 turnNoContract rfl).2.2.1⟩

/-- The emitted turn records, as its initial exact-match flag, the byte
comparison of the initial output against the ingested expected literal. -/
theorem runTrial_initialExactMatch (env : TrialEnv) (p : ScriptPrompt)
    (t : ExperimentTurn) (out0 : JsStr)
    (hreq : env.requestLLM 0 = some out0) (h : runTrial env p = some t) :
    t.initialExactMatch =
      (normalizeExpectedLiteral p).map (fun lit => decide (out0 = lit)) := by
  unfold runTrial at h
  rw [hreq] at h
  dsimp only at h
  cases hgate : gateForOutput env 0 out0 (normalizeExpectedLiteral p)
      (expectedLabelFor p (normalizeExpectedLiteral p)) with
  | none => rw [hgate] at h; cases h
  | some ge =>
    obtain ⟨g0, ev0⟩ := ge
    rw [hgate] at h
    dsimp only at h
    cases hlit : normalizeExpectedLiteral p with
    | none =>
      rw [hlit] at h
      dsimp only at h
      cases h
      rfl
    | some lit =>
      rw [hlit] at h
      dsimp only at h
      split at h
      · cases h
      · rename_i st corr heq
        cases h
        rfl

/-- C9: the expected literal is trimmed at ingestion, so on a prompt whose
expected literal carries surrounding whitespace an output equal to the
trimmed form scores an initial exact match while an output equal to the
original untrimmed field value does not. -/
theorem expectedLiteral_trimmed_at_ingestion (env : TrialEnv)
    (p : ScriptPrompt) (s : JsStr) (t : ExperimentTurn)
    (hfield : p.expected_literal = some s)
    (hne : jsTrim s ≠ [])
    (h : runTrial env p = some t) :
    (env.requestLLM 0 = some (jsTrim s) → t.initialExactMatch = some true) ∧
    (env.requestLLM 0 = some s → s ≠ jsTrim s →
      t.initialExactMatch = some false) := by
  have hpos : 0 < (jsTrim s).length := List.length_pos.mpr hne
  have hnorm : normalizeExpectedLiteral p = some (jsTrim s) := by
    simp [normalizeExpectedLiteral, hfield, hpos]
  constructor
  · intro hreq
    rw [runTrial_initialExactMatch env p t (jsTrim s) hreq h, hnorm]
    simp
  · intro hreq hne2
    rw [runTrial_initialExactMatch env p t s hreq h, hnorm]
    simp [hne2]

/-- Witness for `expectedLiteral_trimmed_at_ingestion`: on the spaced
prompt, echoing the trimmed literal scores an initial match and echoing
the raw untrimmed field value does not. -/
theorem expectedLiteral_trimmed_at_ingestion_witness :
    turnSpacedPassive.initialExactMatch = some true ∧
      turnSpacedUntrimmed.initialExactMatch = some false :=
  ⟨(expectedLiteral_trimmed_at_ingestion envPassive promptSpaced " 42 ".data
      turnSpacedPassive rfl (by decide) rfl).1 rfl,
   (expectedLiteral_trimmed_at_ingestion envUntrimmed promptSpaced
      " 42 ".data turnSpacedUntrimmed rfl (by decide) rfl).2 rfl (by decide)⟩

/-- With a brutal script and truthy literal and label, the gate is derived
locally from the structured evaluation of the output, with no observer
involvement. -/
theorem gateForOutput_brutal (env : TrialEnv) (k : Nat) (out lit lab : JsStr)
    (hb : env.isBrutalScript = true)
    (hlit : ¬lit.isEmpty = true) (hlab : ¬lab.isEmpty = true) :
    gateForOutput env k out (some lit) (some lab) =
      some (brutalGateState (evaluateBrutalOutput env.parse out lab lit),
        some (evaluateBrutalOutput env.parse out lab lit)) := by
  unfold gateForOutput
  dsimp only
  rw [if_pos ⟨hb, hlit, hlab⟩]

/-- In brutal mode the retry loop keeps the gate state derived from the
structured evaluation of the latest output. -/
theorem runRetryLoop_brutal_gate (env : TrialEnv) (lit lab : JsStr)
    (hb : env.isBrutalScript = true)
    (hlit : ¬lit.isEmpty = true) (hlab : ¬lab.isEmpty = true) :
    ∀ (fuel : Nat) (st st' : RetryState),
      runRetryLoop env lit (some lab) fuel st = some st' →
      st.finalEval =
        some (evaluateBrutalOutput env.parse st.finalOutput lab lit) →
      st.finalGateState =
        brutalGateState (evaluateBrutalOutput env.parse st.finalOutput lab lit) →
      st'.finalEval =
        some (evaluateBrutalOutput env.parse st'.finalOutput lab lit) ∧
      st'.finalGateState =
        brutalGateState
          (evaluateBrutalOutput env.parse st'.finalOutput lab lit) := by
  intro fuel
  induction fuel with
  | zero =>
    intro st st' h h1 h2
    cases h
    exact ⟨h1, h2⟩
  | succ n ih =>
    intro st st' h h1 h2
    unfold runRetryLoop at h
    split at h
    · split at h
      · cases h
        exact ⟨h1, h2⟩
      · dsimp only at h
        rw [if_neg (by simp [hb])] at h
        dsimp only at h
        split at h
        · cases h
        · rename_i retryOutput hreqeq
          rw [gateForOutput_brutal env _ retryOutput lit lab hb hlit hlab]
            at h
          dsimp only at h
          exact ih _ st' h rfl rfl
    · cases h
      exact ⟨h1, h2⟩

/-- In brutal mode the retry loop never consults the observer: two
environments differing only in their observer run it identically. -/
theorem runRetryLoop_observe_independent (e1 e2 : TrialEnv) (lit lab : JsStr)
    (hb : e1.isBrutalScript = true)
    (hf1 : e2.isBrutalScript = e1.isBrutalScript)
    (hf2 : e2.assistedRetryCap = e1.assistedRetryCap)
    (hf3 : e2.parse = e1.parse)
    (hf4 : e2.requestLLM = e1.requestLLM)
    (hf5 : e2.applyConstraint = e1.applyConstraint)
    (hf6 : e2.cancelledAtRetry = e1.cancelledAtRetry)
    (hlit : ¬lit.isEmpty = true) (hlab : ¬lab.isEmpty = true) :
    ∀ (fuel : Nat) (st : RetryState),
      runRetryLoop e1 lit (some lab) fuel st =
        runRetryLoop e2 lit (some lab) fuel st := by
  intro fuel
  induction fuel with
  | zero => intro st; rfl
  | succ n ih =>
    intro st
    unfold runRetryLoop
    rw [hf1, hf2, hf4, hf5, hf6]
    by_cases hg : st.retryCountUsed < e1.assistedRetryCap ∧
        st.finalExactMatch = some false
    · rw [if_pos hg, if_pos hg]
      by_cases hc : e1.cancelledAtRetry st.retryCountUsed
      · rw [if_pos hc, if_pos hc]
      · rw [if_neg hc, if_neg hc]
        dsimp only
        rw [if_neg (show ¬(¬e1.isBrutalScript = true ∧
            st.finalGateState = GateState.PAUSE) by simp [hb])]
        dsimp only
        cases hreq : e1.requestLLM (st.retryCountUsed + 1) with
        | none => rfl
        | some retryOutput =>
          dsimp only
          rw [gateForOutput_brutal e1 _ retryOutput lit lab hb hlit hlab,
            gateForOutput_brutal e2 _ retryOutput lit lab
              (hf1.trans hb) hlit hlab, hf3]
          dsimp only
          exact ih _
    · rw [if_neg hg, if_neg hg]

/-- C7: in structured (brutal) mode, with a truthy literal and label, the
gate is derived locally for both the initial evaluation and every retry
re-evaluation: the run is independent of the external observer, and every
emitted turn carries gates equal to CONTINUE on an exactly matching
evaluation and PAUSE otherwise (via `brutalGateState` applied to the
structured evaluation of the corresponding output). -/
theorem runTrial_brutal_gate_local (env : TrialEnv) (p : ScriptPrompt)
    (lit lab : JsStr)
    (hb : env.isBrutalScript = true)
    (hlit : normalizeExpectedLiteral p = some lit)
    (hlitne : lit.isEmpty = false)
    (hlab : expectedLabelFor p (normalizeExpectedLiteral p) = some lab)
    (hlabne : lab.isEmpty = false) :
    (∀ o1 o2, runTrial { env with observe := o1 } p =
        runTrial { env with observe := o2 } p) ∧
    ∀ t, runTrial env p = some t →
      t.initialGateState = brutalGateState
        (evaluateBrutalOutput env.parse t.initialOutput lab lit) ∧
      t.gateState = brutalGateState
        (evaluateBrutalOutput env.parse t.baselineOutput lab lit) := by
  have hlit' : ¬lit.isEmpty = true := by simp [hlitne]
  have hlab' : ¬lab.isEmpty = true := by simp [hlabne]
  have hlab2 : expectedLabelFor p (some lit) = some lab := by
    rw [← hlit]; exact hlab
  constructor
  · intro o1 o2
    unfold runTrial
    dsimp only
    cases hreq : env.requestLLM 0 with
    | none => rfl
    | some initialOutput =>
      dsimp only
      rw [hlit, hlab2,
        gateForOutput_brutal { env with observe := o1 } 0 initialOutput lit
          lab hb hlit' hlab',
        gateForOutput_brutal { env with observe := o2 } 0 initialOutput lit
          lab hb hlit' hlab']
      dsimp only
      rw [runRetryLoop_observe_independent { env with observe := o1 }
        { env with observe := o2 } lit lab hb rfl rfl rfl rfl rfl rfl
        hlit' hlab']
  · intro t h
    unfold runTrial at h
    cases hreq : env.requestLLM 0 with
    | none => rw [hreq] at h; cases h
    | some initialOutput =>
      rw [hreq] at h
      dsimp only at h
      rw [hlit, hlab2,
        gateForOutput_brutal env 0 initialOutput lit lab hb hlit'
          hlab'] at h
      dsimp only at h
      split at h
      · cases h
      · rename_i st corr heq
        cases h
        refine ⟨rfl, ?_⟩
        split at heq
        · split at heq
          · cases heq
          · rename_i st' hloop
            simp only [Option.some.injEq, Prod.mk.injEq] at heq
            obtain ⟨rfl, rfl⟩ := heq
            exact (runRetryLoop_brutal_gate env lit lab hb hlit' hlab'
              env.assistedRetryCap _ st' hloop rfl rfl).2
        · simp only [Option.some.injEq, Prod.mk.injEq] at heq
          obtain ⟨rfl, rfl⟩ := heq
          rfl

/-- Witness for `runTrial_brutal_gate_local`: the concrete brutal run is
observer-independent and its emitted turn carries the locally derived
pause gate. -/
theorem runTrial_brutal_gate_local_witness :
    runTrial { envBrutal with observe := fun _ => some .PAUSE }
        promptBrutalB =
      runTrial { envBrutal with observe := fun _ => none } promptBrutalB ∧
    turnBrutalB.initialGateState = brutalGateState
      (evaluateBrutalOutput envBrutal.parse turnBrutalB.initialOutput
        "B".data (brutalLiteralFor "B".data)) :=
  ⟨(runTrial_brutal_gate_local envBrutal promptBrutalB
      (brutalLiteralFor "B".data) "B".data rfl rfl rfl rfl rfl).1
      (fun _ => some .PAUSE) (fun _ => none),
   ((runTrial_brutal_gate_local envBrutal promptBrutalB
      (brutalLiteralFor "B".data) "B".data rfl rfl rfl rfl rfl).2
      turnBrutalB rfl).1⟩

/-- C3: the structured evaluator returns, on every output, label, literal
and parser behaviour, exactly the taxonomy the specification describes:
byte equality gives EXACT_MATCH, parse failure NON_JSON_OUTPUT, a
non-object parse or any failed key-set/key-order/value check
SCHEMA_VIOLATION, a valid object with a wrong answer
SEMANTIC_HARD_FAILURE, and otherwise FORMAT_ONLY_DRIFT. -/
theorem evaluateBrutalOutput_follows_spec (parse : JsStr → Option Json)
    (modelOutput expectedLabel expectedLiteral : JsStr) :
    (evaluateBrutalOutput parse modelOutput expectedLabel
        expectedLiteral).taxonomy =
      brutalTaxonomySpec parse modelOutput expectedLabel expectedLiteral := by
  unfold evaluateBrutalOutput brutalTaxonomySpec
  by_cases hm : modelOutput = expectedLiteral
  · rw [if_pos hm, if_pos hm]
  · rw [if_neg hm, if_neg hm]
    cases hp : parse modelOutput with
    | none => rfl
    | some parsed =>
      cases parsed with
      | null => rfl
      | bool b => rfl
      | num q => rfl
      | str s => rfl
      | arr items => rfl
      | obj record =>
        dsimp only [objFields]
        cases hr : resultRecordOf record with
        | none =>
          simp_all [specChecksPass, specAnswer, specConfidence, specVersion]
        | some rf =>
          cases hmr : metaRecordOf record with
          | none =>
            cases ha : lookupField rf "answer".data with
            | none =>
              simp_all [specChecksPass, specAnswer, specConfidence,
                specVersion]
            | some v =>
              cases v <;>
                simp_all [specChecksPass, specAnswer, specConfidence,
                  specVersion]
          | some mf =>
            cases ha : lookupField rf "answer".data with
            | none =>
              simp_all [specChecksPass, specAnswer, specConfidence,
                specVersion]
            | some v =>
              cases v with
              | null =>
                simp_all [specChecksPass, specAnswer, specConfidence,
                  specVersion]
              | bool b =>
                simp_all [specChecksPass, specAnswer, specConfidence,
                  specVersion]
              | num q =>
                simp_all [specChecksPass, specAnswer, specConfidence,
                  specVersion]
              | arr items =>
                simp_all [specChecksPass, specAnswer, specConfidence,
                  specVersion]
              | obj fields =>
                simp_all [specChecksPass, specAnswer, specConfidence,
                  specVersion]
              | str a =>
                cases hc : lookupField rf "confidence".data with
                | none =>
                  simp_all [specChecksPass, specAnswer, specConfidence,
                    specVersion]
                | some cv =>
                  cases cv with
                  | null =>
                    simp_all [specChecksPass, specAnswer, specConfidence,
                      specVersion]
                  | bool b =>
                    simp_all [specChecksPass, specAnswer, specConfidence,
                      specVersion]
                  | str s2 =>
                    simp_all [specChecksPass, specAnswer, specConfidence,
                      specVersion]
                  | arr items =>
                    simp_all [specChecksPass, specAnswer, specConfidence,
                      specVersion]
                  | obj fields =>
                    simp_all [specChecksPass, specAnswer, specConfidence,
                      specVersion]
                  | num q =>
                    cases hv : lookupField mf "version".data with
                    | none =>
                      simp_all [specChecksPass, specAnswer, specConfidence,
                        specVersion]
                    | some vv =>
                      cases vv with
                      | null =>
                        simp_all [specChecksPass, specAnswer, specConfidence,
                          specVersion]
                      | bool b =>
                        simp_all [specChecksPass, specAnswer, specConfidence,
                          specVersion]
                      | str s2 =>
                        simp_all [specChecksPass, specAnswer, specConfidence,
                          specVersion]
                      | arr items =>
                        simp_all [specChecksPass, specAnswer, specConfidence,
                          specVersion]
                      | obj fields =>
                        simp_all [specChecksPass, specAnswer, specConfidence,
                          specVersion]
                      | num q2 =>
                        by_cases h1 : keysOf record =
                            ["result".data, "meta".data] <;>
                        by_cases h2 : keysOf rf =
                            ["answer".data, "confidence".data] <;>
                        by_cases h3 : keysOf mf = ["version".data] <;>
                        by_cases h4 : a ∈ BRUTAL_ALLOWED_LABELS <;>
                        by_cases h5 : q = 0.75 <;>
                        by_cases h6 : q2 = (1 : ℚ) <;>
                        by_cases h7 : a = expectedLabel <;>
                        simp_all [specChecksPass, specAnswer, specConfidence,
                          specVersion]

/-- C1: the source literal classifier follows the specified algorithm on
every pair of strings, every boundary punctuation class and both values of
the exact-match flag. -/
theorem classifyMismatchKind_follows_spec (punct : Char → Bool)
    (expectedLiteral rawOutput : JsStr) (exactMatch : Bool) :
    classifyMismatchKind punct expectedLiteral rawOutput exactMatch =
      classifyMismatchKindSpec punct expectedLiteral rawOutput exactMatch := by
  unfold classifyMismatchKind classifyMismatchKindSpec
  cases exactMatch with
  | true => rfl
  | false =>
    rw [hasExpectedPrefixWithBoundary_eq_spec]
    simp [List.length_eq_zero]

end Guardian
